import Mathlib

/-!
Verification of the ml-utils repository: a shallow embedding of
`src/cv/pose/openpose/openpose.py` (keypoint extraction, skeleton rendering,
pose-to-JSON serialization, per-variant topologies) and
`src/general/dir_utils.py` (`random_split`), with theorems settling the
specification's claims about them.

Numeric values flowing through the Python code (confidence maps, coordinates,
ratios) are modelled as exact rationals; where a claim's truth depends on
IEEE-754 binary64 rounding of Python `float` arithmetic, a dedicated
round-to-nearest-even model (`roundDouble`) is used as well.
-/

/-- A detected keypoint `(x, y, confidence)`, as built by `_parse_keypoints`. -/
abbrev Keypoint : Type := ℚ × ℚ × ℚ

/-- The 4-D score volume `net_ouput` handed to `_parse_keypoints`
(image-in-batch × channel × height × width, numpy-style: explicit shape plus
a lookup function for the entries). `nH`/`nW` play the roles of
`net_ouput.shape[2]` / `net_ouput.shape[3]`. -/
structure Tensor4 where
  nB : ℕ
  nC : ℕ
  nH : ℕ
  nW : ℕ
  data : ℕ → ℕ → ℕ → ℕ → ℚ

/-- `net_ouput[0, idx, :, :]`: the confidence plane of channel `idx`,
as a function of (row, column). -/
def probMap (t : Tensor4) (idx : ℕ) : ℕ × ℕ → ℚ :=
  fun rc => t.data 0 idx rc.1 rc.2

/-- Row-major scan order of an `h × w` plane, the order in which
`cv2.minMaxLoc` traverses the matrix. -/
def scanRC (h w : ℕ) : List (ℕ × ℕ) :=
  (List.range h).flatMap fun r => (List.range w).map fun c => (r, c)

/-- One step of the running-maximum scan of `cv2.minMaxLoc`: the best
candidate is replaced only on a strict improvement, so the first occurrence
of the maximum (in scan order) is kept. -/
def argmaxStep (f : ℕ × ℕ → ℚ) (best : (ℕ × ℕ) × ℚ) (p : ℕ × ℕ) : (ℕ × ℕ) × ℚ :=
  if best.2 < f p then (p, f p) else best

/-- The max part of `cv2.minMaxLoc` on an `h × w` plane: the maximising
location together with the maximum value (`none` on an empty plane, which
the source never feeds it). -/
def argmaxPlane (f : ℕ × ℕ → ℚ) (h w : ℕ) : Option ((ℕ × ℕ) × ℚ) :=
  match scanRC h w with
  | [] => none
  | p :: ps => some (ps.foldl (argmaxStep f) (p, f p))

/-- `_parse_keypoints(net_ouput, img_size, threshold)`: for every channel
index below `len(BODY_PARTS)`, find the global maximum of its confidence
plane, rescale the maximising location to image coordinates
(`x = img_size[0] * point[0] / W`, `y = img_size[1] * point[1] / H`, with
`point = (column, row)` as returned by `cv2.minMaxLoc`), and emit the
keypoint when `prob > threshold`, `None` otherwise. -/
def parseKeypoints (bodyParts : List (String × ℕ)) (t : Tensor4)
    (imgW imgH threshold : ℚ) : List (Option Keypoint) :=
  (List.range bodyParts.length).map fun idx =>
    match argmaxPlane (probMap t idx) t.nH t.nW with
    | some ((r, c), prob) =>
      let x : ℚ := imgW * (c : ℚ) / (t.nW : ℚ)
      let y : ℚ := imgH * (r : ℚ) / (t.nH : ℚ)
      if threshold < prob then some (x, y, prob) else none
    | none => none

/-- `m` is the (attained) maximum confidence of channel `idx` of `t`. -/
def IsPlaneMax (t : Tensor4) (idx : ℕ) (m : ℚ) : Prop :=
  (∃ r c, r < t.nH ∧ c < t.nW ∧ t.data 0 idx r c = m) ∧
    ∀ r c, r < t.nH → c < t.nW → t.data 0 idx r c ≤ m

/-- `COCOOpenPosePredictor.BODY_PARTS` as an ordered name→channel table
(Python dicts preserve insertion order). -/
def cocoBodyParts : List (String × ℕ) :=
  [("Nose", 0), ("Neck", 1), ("RShoulder", 2), ("RElbow", 3), ("RWrist", 4),
   ("LShoulder", 5), ("LElbow", 6), ("LWrist", 7), ("RHip", 8), ("RKnee", 9),
   ("RAnkle", 10), ("LHip", 11), ("LKnee", 12), ("LAnkle", 13), ("REye", 14),
   ("LEye", 15), ("REar", 16), ("LEar", 17), ("Background", 18)]

/-- `COCOOpenPosePredictor.POSE_PAIRS`. -/
def cocoPosePairs : List (String × String) :=
  [("Neck", "RShoulder"), ("RShoulder", "RElbow"), ("RElbow", "RWrist"),
   ("Neck", "LShoulder"), ("LShoulder", "LElbow"), ("LElbow", "LWrist"),
   ("Neck", "RHip"), ("RHip", "RKnee"), ("RKnee", "RAnkle"),
   ("Neck", "LHip"), ("LHip", "LKnee"), ("LKnee", "LAnkle"),
   ("Neck", "Nose"), ("Nose", "REye"), ("REye", "REar"),
   ("Nose", "LEye"), ("LEye", "LEar")]

/-- `MPIOpenPosePredictor.BODY_PARTS`. -/
def mpiBodyParts : List (String × ℕ) :=
  [("Head", 0), ("Neck", 1), ("RShoulder", 2), ("RElbow", 3), ("RWrist", 4),
   ("LShoulder", 5), ("LElbow", 6), ("LWrist", 7), ("RHip", 8), ("RKnee", 9),
   ("RAnkle", 10), ("LHip", 11), ("LKnee", 12), ("LAnkle", 13), ("Chest", 14),
   ("Background", 15)]

/-- `MPIOpenPosePredictor.POSE_PAIRS`. -/
def mpiPosePairs : List (String × String) :=
  [("Head", "Neck"), ("Neck", "RShoulder"), ("RShoulder", "RElbow"),
   ("RElbow", "RWrist"), ("Neck", "LShoulder"), ("LShoulder", "LElbow"),
   ("LElbow", "LWrist"), ("Neck", "Chest"), ("Chest", "RHip"),
   ("RHip", "RKnee"), ("RKnee", "RAnkle"), ("Chest", "LHip"),
   ("LHip", "LKnee"), ("LKnee", "LAnkle")]

/-- `Body25OpenPosePredictor.BODY_PARTS`. -/
def body25BodyParts : List (String × ℕ) :=
  [("Nose", 0), ("Neck", 1), ("RShoulder", 2), ("RElbow", 3), ("RWrist", 4),
   ("LShoulder", 5), ("LElbow", 6), ("LWrist", 7), ("MidHip", 8), ("RHip", 9),
   ("RKnee", 10), ("RAnkle", 11), ("LHip", 12), ("LKnee", 13), ("LAnkle", 14),
   ("REye", 15), ("LEye", 16), ("REar", 17), ("LEar", 18), ("LBigToe", 19),
   ("LSmallToe", 20), ("LHeel", 21), ("RBigToe", 22), ("RSmallToe", 23),
   ("RHeel", 24), ("Background", 25)]

/-- `Body25OpenPosePredictor.POSE_PAIRS`. -/
def body25PosePairs : List (String × String) :=
  [("Neck", "Nose"), ("Neck", "RShoulder"), ("RShoulder", "RElbow"),
   ("RElbow", "RWrist"), ("Neck", "LShoulder"), ("LShoulder", "LElbow"),
   ("LElbow", "LWrist"), ("Nose", "REye"), ("REye", "REar"),
   ("Nose", "LEye"), ("LEye", "LEar"), ("Neck", "MidHip"),
   ("MidHip", "RHip"), ("RHip", "RKnee"), ("RKnee", "RAnkle"),
   ("RAnkle", "RBigToe"), ("RBigToe", "RSmallToe"), ("RAnkle", "RHeel"),
   ("MidHip", "LHip"), ("LHip", "LKnee"), ("LKnee", "LAnkle"),
   ("LAnkle", "LBigToe"), ("LBigToe", "LSmallToe"), ("LAnkle", "LHeel")]

/-- Dictionary access `BODY_PARTS[name]` (keys are unique in every variant;
`none` models the `KeyError` case, which never occurs for the shipped
tables). -/
def lookupPart (bodyParts : List (String × ℕ)) (nm : String) : Option ℕ :=
  match bodyParts with
  | [] => none
  | (k, v) :: rest => if k = nm then some v else lookupPart rest nm

/-- Python `int(...)` applied to a rational float value: truncation toward
zero. -/
def pyInt (q : ℚ) : ℤ := if 0 ≤ q then ⌊q⌋ else ⌈q⌉

/-- One `cv2` drawing call issued by `visualize` / `_visualize_points`, with
its `int(...)`-truncated pixel arguments. -/
inductive DrawCmd where
  | circle (x y : ℤ)
  | label (idx : ℕ) (x y : ℤ)
  | line (x1 y1 x2 y2 : ℤ)
deriving DecidableEq

/-- Loop body of `_visualize_points` for index `i`: a filled circle when the
keypoint is present and above the threshold, plus the index label when
`put_text` is set. -/
def pointCmdsFor (keypoints : List (Option Keypoint)) (put_text : Bool)
    (threshold : ℚ) (i : ℕ) : List DrawCmd :=
  match keypoints[i]? with
  | some (some k) =>
    if threshold < k.2.2 then
      DrawCmd.circle (pyInt k.1) (pyInt k.2.1) ::
        (if put_text then [DrawCmd.label i (pyInt k.1) (pyInt k.2.1)] else [])
    else []
  | _ => []

/-- Loop body of the skeleton loop in `visualize` for one `POSE_PAIRS`
entry: the connecting line is drawn exactly when both endpoint keypoints are
non-`None` and both confidences strictly exceed the threshold. -/
def edgeCmdFor (bodyParts : List (String × ℕ)) (keypoints : List (Option Keypoint))
    (threshold : ℚ) (pair : String × String) : List DrawCmd :=
  match lookupPart bodyParts pair.1, lookupPart bodyParts pair.2 with
  | some p1, some p2 =>
    match keypoints[p1]?, keypoints[p2]? with
    | some (some k1), some (some k2) =>
      if threshold < k1.2.2 ∧ threshold < k2.2.2 then
        [DrawCmd.line (pyInt k1.1) (pyInt k1.2.1) (pyInt k2.1) (pyInt k2.2.1)]
      else []
    | _, _ => []
  | _, _ => []

/-- The full sequence of drawing calls `visualize` performs on the copied
image: the `_visualize_points` loop followed by the skeleton loop. -/
def visualizeCmds (bodyParts : List (String × ℕ)) (posePairs : List (String × String))
    (keypoints : List (Option Keypoint)) (put_text : Bool) (threshold : ℚ) :
    List DrawCmd :=
  (List.range bodyParts.length).flatMap (pointCmdsFor keypoints put_text threshold) ++
    posePairs.flatMap (edgeCmdFor bodyParts keypoints threshold)

/-- An image buffer: its original pixel payload (abstracted to a tag) plus
the drawing calls applied to it so far. -/
structure PoseImage where
  content : ℕ
  overlays : List DrawCmd
deriving DecidableEq

/-- Applying one in-place `cv2` drawing call to buffer `r` of the heap. -/
def heapDraw (h : List PoseImage) (r : ℕ) (c : DrawCmd) : List PoseImage :=
  match h[r]? with
  | some img => h.set r ⟨img.content, img.overlays ++ [c]⟩
  | none => h

/-- `visualize` at the buffer level: allocate `img.copy()` as a fresh
buffer, issue every drawing call against the copy, and return the new heap
together with the reference to the copy (the function's return value). The
caller's buffer `r` is never drawn on. -/
def visualizeHeap (h : List PoseImage) (r : ℕ) (bodyParts : List (String × ℕ))
    (posePairs : List (String × String)) (keypoints : List (Option Keypoint))
    (put_text : Bool) (threshold : ℚ) : List PoseImage × ℕ :=
  let copyBuf : PoseImage := match h[r]? with
    | some img => img
    | none => ⟨0, []⟩
  let h1 := h ++ [copyBuf]
  let cRef := h.length
  ((visualizeCmds bodyParts posePairs keypoints put_text threshold).foldl
    (fun hh c => heapDraw hh cRef c) h1, cRef)

/-- The record built by `add_keypoints_to_json`:
`{'version': 1.0, 'people': [{'pose_keypoints': ...}]}` with each person a
flat numeric list. -/
structure PoseJson where
  version : ℚ
  people : List (List ℚ)
deriving DecidableEq

/-- The two list comprehensions of `add_keypoints_to_json`: replace `None`
by the triple `(missing_val, missing_val, missing_val)` (every real keypoint
is a non-empty tuple, hence truthy), then flatten the triples. -/
def flattenKeypoints (points : List (Option Keypoint)) (missing_val : ℚ) : List ℚ :=
  (points.map fun p => match p with
    | some k => k
    | none => ((missing_val, missing_val, missing_val) : Keypoint)).flatMap
    fun k => [k.1, k.2.1, k.2.2]

/-- `add_keypoints_to_json`, applied to the keypoint list the predictor
produced for the image. -/
def add_keypoints_to_json (points : List (Option Keypoint)) (missing_val : ℚ) :
    PoseJson :=
  ⟨1, [flattenKeypoints points missing_val]⟩

/-- Boolean check that one `POSE_PAIRS` entry resolves to two in-range
channel indices of the given `BODY_PARTS` table. -/
def pairOk (bodyParts : List (String × ℕ)) (pair : String × String) : Bool :=
  match lookupPart bodyParts pair.1, lookupPart bodyParts pair.2 with
  | some i, some j => decide (i < bodyParts.length) && decide (j < bodyParts.length)
  | _, _ => false

/-- A filesystem mutation performed by `random_split`; destination
directories are kept as path components `[output_path, group, name]`. -/
inductive FSOp where
  | mkdir (path : List String)
  | copyFile (src : String) (dest : List String)
  | moveFile (src : String) (dest : List String)
deriving DecidableEq

/-- The two precondition failures of `random_split` (the `assert`s on the
ratio sum and on the globbed file list). -/
inductive SplitError where
  | configurationError
  | emptyInputError
deriving DecidableEq

/-- Outcome of a `random_split` call: the filesystem operations performed,
and either an error or the three groups of file paths. -/
structure SplitOutcome where
  ops : List FSOp
  result : Except SplitError (List String × List String × List String)

/-- Python slice-endpoint normalization for a list of length `n`: negative
indices count from the end, and endpoints clamp to `[0, n]`. -/
def pySliceIdx (i : ℤ) (n : ℕ) : ℕ :=
  if i < 0 then (n + i).toNat else min i.toNat n

/-- `random_split` from `src/general/dir_utils.py`. `files` stands for the
globbed input list and `shuffled` for its `random.shuffle` permutation;
ratio arithmetic is exact rational arithmetic here (see `roundDouble` for
the IEEE refinement). Following the source: the ratio assert runs first,
then the emptiness assert, then the `mkdir`s (`test` only when
`n > int(n * (train_ratio + val_ratio))`), then the slicing, then the
per-file copy/move passes (the `test` pass only on a non-empty slice). -/
def random_split (files : List String) (output_path : String)
    (train_ratio val_ratio : ℚ) (mv : Bool) (name : String)
    (shuffled : List String) : SplitOutcome :=
  if train_ratio + val_ratio ≤ 1 then
    let n := files.length
    if 0 < n then
      let train_path := [output_path, "train", name]
      let val_path := [output_path, "val", name]
      let test_path := [output_path, "test", name]
      let cutB := pyInt ((n : ℚ) * (train_ratio + val_ratio))
      let dirOps := [FSOp.mkdir train_path, FSOp.mkdir val_path] ++
        (if cutB < (n : ℤ) then [FSOp.mkdir test_path] else [])
      let cutA := pyInt ((n : ℚ) * train_ratio)
      let a := pySliceIdx cutA n
      let b := pySliceIdx cutB n
      let train := shuffled.take a
      let val := (shuffled.drop a).take (b - a)
      let test := shuffled.drop b
      let fileOp := fun (f : String) (d : List String) =>
        if mv then FSOp.moveFile f d else FSOp.copyFile f d
      let copyOps := train.map (fileOp · train_path) ++ val.map (fileOp · val_path) ++
        (if 0 < test.length then test.map (fileOp · test_path) else [])
      ⟨dirOps ++ copyOps, .ok (train, val, test)⟩
    else ⟨[], .error .emptyInputError⟩
  else ⟨[], .error .configurationError⟩

/-- A dyadic rational `m * 2 ^ e` (not kept normalized). Every IEEE-754
binary64 value, hence every Python float reached in this development, is of
this form. -/
structure Dyadic where
  m : ℤ
  e : ℤ
deriving DecidableEq

/-- Fuelled bit length: `bitLen fuel n` is the number of binary digits of
`n` whenever `n < 2 ^ fuel` (so `2 ^ (bitLen n - 1) ≤ n < 2 ^ bitLen n` for
positive `n`). -/
def bitLen : ℕ → ℕ → ℕ
  | 0, _ => 0
  | fuel + 1, n => if n = 0 then 0 else bitLen fuel (n / 2) + 1

/-- Round the fraction `nu / de` (with `de > 0`) to the nearest natural
number, ties to even — the IEEE-754 default rounding direction. -/
def rheFrac (nu de : ℕ) : ℕ :=
  let q := nu / de
  let r := nu % de
  if 2 * r < de then q else if de < 2 * r then q + 1 else if q % 2 = 0 then q else q + 1

/-- The binade exponent of the positive rational `p / q`: the unique `e`
with `2 ^ e ≤ p / q < 2 ^ (e + 1)`. -/
def binadeExp (p q : ℕ) : ℤ :=
  let b : ℤ := (bitLen 4000 p : ℤ) - (bitLen 4000 q : ℤ)
  if q * 2 ^ b.toNat ≤ p * 2 ^ (-b).toNat then b else b - 1

/-- Correct rounding of the positive rational `p / q` to IEEE-754 binary64
(normal range): the 53-bit significand is rounded to nearest, ties to even.
Python float literals (e.g. `0.7` is `roundPosRat 7 10`) and arithmetic
results are exactly these values; overflow and subnormals do not arise for
the magnitudes used here. -/
def roundPosRat (p q : ℕ) : Dyadic :=
  let be := binadeExp p q
  let sh : ℤ := 52 - be
  let nd : ℕ × ℕ :=
    if 0 ≤ sh then (p * 2 ^ sh.toNat, q) else (p, q * 2 ^ (-sh).toNat)
  ⟨(rheFrac nd.1 nd.2 : ℤ), be - 52⟩

/-- Correct rounding of an arbitrary dyadic to binary64. -/
def roundDyadic (d : Dyadic) : Dyadic :=
  if d.m = 0 then ⟨0, 0⟩
  else
    let rp :=
      if 0 ≤ d.e then roundPosRat (d.m.natAbs * 2 ^ d.e.toNat) 1
      else roundPosRat d.m.natAbs (2 ^ (-d.e).toNat)
    if d.m < 0 then ⟨-rp.m, rp.e⟩ else rp

/-- Exact sum of two dyadics (align exponents, add mantissas). -/
def Dyadic.add (x y : Dyadic) : Dyadic :=
  if x.e ≤ y.e then ⟨x.m + y.m * 2 ^ (y.e - x.e).toNat, x.e⟩
  else ⟨x.m * 2 ^ (x.e - y.e).toNat + y.m, y.e⟩

/-- Exact product of two dyadics. -/
def Dyadic.mul (x y : Dyadic) : Dyadic := ⟨x.m * y.m, x.e + y.e⟩

/-- Python float addition: exact sum, correctly rounded to binary64. -/
def dfadd (x y : Dyadic) : Dyadic := roundDyadic (x.add y)

/-- Python float multiplication: exact product, correctly rounded. -/
def dfmul (x y : Dyadic) : Dyadic := roundDyadic (x.mul y)

/-- Python `int(...)` on a float value: truncation toward zero. -/
def Dyadic.pyTrunc (d : Dyadic) : ℤ :=
  if 0 ≤ d.e then d.m * 2 ^ d.e.toNat else d.m.tdiv (2 ^ (-d.e).toNat)

/-- The three slices `random_split` computes, under genuine Python float
semantics: `int(n * train_ratio)` and `int(n * (train_ratio + val_ratio))`
with `n` converted to float and every operation correctly rounded to
binary64. -/
def pySplitFloatSlices (l : List String) (tf vf : Dyadic) :
    List String × List String × List String :=
  let n := l.length
  let nf := roundDyadic ⟨(n : ℤ), 0⟩
  let a := pySliceIdx (dfmul nf tf).pyTrunc n
  let b := pySliceIdx (dfmul nf (dfadd tf vf)).pyTrunc n
  (l.take a, (l.drop a).take (b - a), l.drop b)

lemma mem_scanRC {h w : ℕ} {p : ℕ × ℕ} :
    p ∈ scanRC h w ↔ p.1 < h ∧ p.2 < w := by
  constructor
  · intro hp
    simp only [scanRC, List.mem_flatMap, List.mem_map, List.mem_range] at hp
    obtain ⟨r, hr, c, hc, hpc⟩ := hp
    subst hpc
    exact ⟨hr, hc⟩
  · intro ⟨h1, h2⟩
    simp only [scanRC, List.mem_flatMap, List.mem_map, List.mem_range]
    exact ⟨p.1, h1, p.2, h2, rfl⟩

lemma argmax_foldl_spec (f : ℕ × ℕ → ℚ) :
    ∀ (l : List (ℕ × ℕ)) (b : (ℕ × ℕ) × ℚ), f b.1 = b.2 →
      f (l.foldl (argmaxStep f) b).1 = (l.foldl (argmaxStep f) b).2 ∧
      ((l.foldl (argmaxStep f) b).1 = b.1 ∨ (l.foldl (argmaxStep f) b).1 ∈ l) ∧
      b.2 ≤ (l.foldl (argmaxStep f) b).2 ∧
      ∀ p ∈ l, f p ≤ (l.foldl (argmaxStep f) b).2 := by
  intro l
  induction l with
  | nil =>
    intro b hb
    exact ⟨hb, Or.inl rfl, le_refl _, by simp⟩
  | cons p ps ih =>
    intro b hb
    simp only [List.foldl_cons]
    by_cases hcmp : b.2 < f p
    · have hstep : argmaxStep f b p = (p, f p) := by
        simp [argmaxStep, hcmp]
      rw [hstep]
      obtain ⟨h1, h2, h3, h4⟩ := ih (p, f p) rfl
      refine ⟨h1, ?_, le_trans (le_of_lt hcmp) h3, ?_⟩
      · rcases h2 with h2 | h2
        · exact Or.inr (h2 ▸ List.mem_cons_self p ps)
        · exact Or.inr (List.mem_cons_of_mem p h2)
      · intro q hq
        rcases List.mem_cons.mp hq with hq | hq
        · exact hq ▸ h3
        · exact h4 q hq
    · have hstep : argmaxStep f b p = b := by
        simp [argmaxStep, hcmp]
      rw [hstep]
      obtain ⟨h1, h2, h3, h4⟩ := ih b hb
      refine ⟨h1, ?_, h3, ?_⟩
      · rcases h2 with h2 | h2
        · exact Or.inl h2
        · exact Or.inr (List.mem_cons_of_mem p h2)
      · intro q hq
        rcases List.mem_cons.mp hq with hq | hq
        · exact hq ▸ le_trans (le_of_not_lt hcmp) h3
        · exact h4 q hq

lemma argmaxPlane_spec (f : ℕ × ℕ → ℚ) {h w : ℕ} (hh : 0 < h) (hw : 0 < w) :
    ∃ r c m, argmaxPlane f h w = some ((r, c), m) ∧ f (r, c) = m ∧
      r < h ∧ c < w ∧ ∀ p ∈ scanRC h w, f p ≤ m := by
  have hmem : ((0, 0) : ℕ × ℕ) ∈ scanRC h w := mem_scanRC.mpr ⟨hh, hw⟩
  obtain ⟨p, ps, heq⟩ := List.exists_cons_of_ne_nil (List.ne_nil_of_mem hmem)
  obtain ⟨h1, h2, h3, h4⟩ := argmax_foldl_spec f ps (p, f p) rfl
  set R := ps.foldl (argmaxStep f) (p, f p) with hR
  have hRmem : R.1 ∈ scanRC h w := by
    rcases h2 with h2 | h2
    · rw [heq, h2]; exact List.mem_cons_self p ps
    · rw [heq]; exact List.mem_cons_of_mem p h2
  have hbounds := mem_scanRC.mp hRmem
  refine ⟨R.1.1, R.1.2, R.2, ?_, h1, hbounds.1, hbounds.2, ?_⟩
  · simp [argmaxPlane, heq]
  · intro q hq
    rw [heq] at hq
    rcases List.mem_cons.mp hq with hq | hq
    · exact hq ▸ h3
    · exact h4 q hq

/-- Per-channel behaviour of `_parse_keypoints`: entry `idx` of the returned
list is determined by comparing the channel's attained maximum with the
threshold, with coordinates rescaled from the maximising location. -/
lemma parse_entry_spec (bodyParts : List (String × ℕ)) (t : Tensor4)
    (imgW imgH threshold : ℚ) (idx : ℕ) (hidx : idx < bodyParts.length)
    (hH : 0 < t.nH) (hW : 0 < t.nW) :
    ∃ r c m, r < t.nH ∧ c < t.nW ∧ IsPlaneMax t idx m ∧
      t.data 0 idx r c = m ∧
      (parseKeypoints bodyParts t imgW imgH threshold)[idx]? =
        some (if threshold < m then
          some (imgW * (c : ℚ) / (t.nW : ℚ), imgH * (r : ℚ) / (t.nH : ℚ), m)
        else none) := by
  obtain ⟨r, c, m, hloc, hval, hr, hc, hmax⟩ :=
    argmaxPlane_spec (probMap t idx) hH hW
  refine ⟨r, c, m, hr, hc, ?_, hval, ?_⟩
  · refine ⟨⟨r, c, hr, hc, hval⟩, ?_⟩
    intro r' c' hr' hc'
    exact hmax (r', c') (mem_scanRC.mpr ⟨hr', hc'⟩)
  · simp only [parseKeypoints, List.getElem?_map, List.getElem?_range, hidx,
      if_pos, Option.map_some']
    rw [hloc]

lemma parse_length (bodyParts : List (String × ℕ)) (t : Tensor4)
    (imgW imgH threshold : ℚ) :
    (parseKeypoints bodyParts t imgW imgH threshold).length = bodyParts.length := by
  simp [parseKeypoints]

lemma flattenKeypoints_length (points : List (Option Keypoint)) (missing_val : ℚ) :
    (flattenKeypoints points missing_val).length = 3 * points.length := by
  induction points with
  | nil => rfl
  | cons p ps ih =>
    cases p <;>
      simp only [flattenKeypoints, List.map_cons, List.flatMap_cons,
        List.length_append, List.length_cons, List.length_nil] at ih ⊢ <;>
      omega

/-- C1: for every score volume, image size and threshold, `_parse_keypoints`
emits a keypoint for a channel iff the channel's maximum confidence strictly
exceeds the threshold: an emitted keypoint carries exactly that maximum as
its confidence (so confidence > threshold), and a channel whose maximum is
at most the threshold yields a `None` entry. -/
theorem parse_emits_iff_threshold (bodyParts : List (String × ℕ)) (t : Tensor4)
    (imgW imgH threshold : ℚ) (idx : ℕ) (hidx : idx < bodyParts.length)
    (hH : 0 < t.nH) (hW : 0 < t.nW) :
    ∃ m, IsPlaneMax t idx m ∧
      (threshold < m → ∃ x y,
        (parseKeypoints bodyParts t imgW imgH threshold)[idx]? = some (some (x, y, m))) ∧
      (m ≤ threshold →
        (parseKeypoints bodyParts t imgW imgH threshold)[idx]? = some none) ∧
      (∀ k : Keypoint,
        (parseKeypoints bodyParts t imgW imgH threshold)[idx]? = some (some k) →
          threshold < k.2.2) := by
  obtain ⟨r, c, m, hr, hc, hmax, hval, hget⟩ :=
    parse_entry_spec bodyParts t imgW imgH threshold idx hidx hH hW
  refine ⟨m, hmax, ?_, ?_, ?_⟩
  · intro hlt
    exact ⟨_, _, by rw [hget, if_pos hlt]⟩
  · intro hle
    rw [hget, if_neg (not_lt.mpr hle)]
  · intro k hk
    rw [hget] at hk
    by_cases hlt : threshold < m
    · rw [if_pos hlt] at hk
      obtain rfl : (imgW * (c : ℚ) / (t.nW : ℚ), imgH * (r : ℚ) / (t.nH : ℚ), m) = k :=
        by simpa using hk
      exact hlt
    · rw [if_neg hlt] at hk
      simp at hk

/-- C1 witness: a 2×2, 19-channel volume whose channels peak at value 5 at
(row 0, column 1); with threshold 2 the extraction emits that maximum. -/
theorem parse_emits_iff_threshold_witness :
    (0 < cocoBodyParts.length ∧
      0 < (Tensor4.mk 1 19 2 2 fun _ _ r c => if r = 0 ∧ c = 1 then 5 else 1).nH ∧
      0 < (Tensor4.mk 1 19 2 2 fun _ _ r c => if r = 0 ∧ c = 1 then 5 else 1).nW) ∧
    ∃ m, IsPlaneMax (Tensor4.mk 1 19 2 2 fun _ _ r c => if r = 0 ∧ c = 1 then 5 else 1) 0 m ∧
      (2 < m → ∃ x y,
        (parseKeypoints cocoBodyParts
          (Tensor4.mk 1 19 2 2 fun _ _ r c => if r = 0 ∧ c = 1 then 5 else 1) 8 6 2)[0]? =
            some (some (x, y, m))) ∧
      (m ≤ 2 →
        (parseKeypoints cocoBodyParts
          (Tensor4.mk 1 19 2 2 fun _ _ r c => if r = 0 ∧ c = 1 then 5 else 1) 8 6 2)[0]? =
            some none) ∧
      (∀ k : Keypoint,
        (parseKeypoints cocoBodyParts
          (Tensor4.mk 1 19 2 2 fun _ _ r c => if r = 0 ∧ c = 1 then 5 else 1) 8 6 2)[0]? =
            some (some k) → 2 < k.2.2) :=
  ⟨⟨by decide, by decide, by decide⟩,
    parse_emits_iff_threshold cocoBodyParts
      (Tensor4.mk 1 19 2 2 fun _ _ r c => if r = 0 ∧ c = 1 then 5 else 1) 8 6 2 0
      (by decide) (by decide) (by decide)⟩

/-- C4 counterexample: the claim says no keypoint is ever emitted for the
background channel, but `_parse_keypoints` loops over all of
`range(len(BODY_PARTS))`, background included: on a volume whose background
channel (index 18 of the COCO table) has maximum 1 > threshold 0, slot 18 of
the returned pose holds an emitted keypoint, not an absent entry. -/
theorem parse_background_emitted_counterexample :
    lookupPart cocoBodyParts "Background" = some 18 ∧
    (parseKeypoints cocoBodyParts (Tensor4.mk 1 19 1 1 fun _ _ _ _ => 1) 1 1 0)[18]? =
      some (some (0, 0, 1)) :=
  ⟨by decide, by
    norm_num [parseKeypoints, argmaxPlane, scanRC, argmaxStep, probMap, cocoBodyParts,
      List.getElem?_map, List.getElem?_range, List.range_succ, List.range_zero,
      List.flatMap_cons, List.flatMap_nil, List.foldl_cons, List.foldl_nil]⟩

/-- C4 (amended): `_parse_keypoints` processes every channel index from 0 to
`len(BODY_PARTS) - 1` — the background channel included, under the same
maximum/threshold rule as any body part — and the returned pose's length
equals `len(BODY_PARTS)` (which counts the background channel). -/
theorem parse_processes_all_channels (bodyParts : List (String × ℕ)) (t : Tensor4)
    (imgW imgH threshold : ℚ) :
    (parseKeypoints bodyParts t imgW imgH threshold).length = bodyParts.length ∧
    ∀ idx, idx < bodyParts.length → 0 < t.nH → 0 < t.nW →
      ∃ r c m, r < t.nH ∧ c < t.nW ∧ IsPlaneMax t idx m ∧ t.data 0 idx r c = m ∧
        (parseKeypoints bodyParts t imgW imgH threshold)[idx]? =
          some (if threshold < m then
            some (imgW * (c : ℚ) / (t.nW : ℚ), imgH * (r : ℚ) / (t.nH : ℚ), m)
          else none) :=
  ⟨parse_length bodyParts t imgW imgH threshold,
    fun idx hidx hH hW => parse_entry_spec bodyParts t imgW imgH threshold idx hidx hH hW⟩

/-- C4 witness: the amended claim instantiated on a 1×1, 19-channel volume,
at the background index 18. -/
theorem parse_processes_all_channels_witness :
    ((parseKeypoints cocoBodyParts (Tensor4.mk 1 19 1 1 fun _ _ _ _ => 1) 1 1 0).length =
      cocoBodyParts.length) ∧
    (18 < cocoBodyParts.length ∧
      0 < (Tensor4.mk 1 19 1 1 fun _ _ _ _ => (1 : ℚ)).nH ∧
      0 < (Tensor4.mk 1 19 1 1 fun _ _ _ _ => (1 : ℚ)).nW) ∧
    ∃ r c m, r < (Tensor4.mk 1 19 1 1 fun _ _ _ _ => (1 : ℚ)).nH ∧
      c < (Tensor4.mk 1 19 1 1 fun _ _ _ _ => (1 : ℚ)).nW ∧
      IsPlaneMax (Tensor4.mk 1 19 1 1 fun _ _ _ _ => 1) 18 m ∧
      (Tensor4.mk 1 19 1 1 fun _ _ _ _ => (1 : ℚ)).data 0 18 r c = m ∧
      (parseKeypoints cocoBodyParts (Tensor4.mk 1 19 1 1 fun _ _ _ _ => 1) 1 1 0)[18]? =
        some (if 0 < m then
          some (1 * (c : ℚ) / ((Tensor4.mk 1 19 1 1 fun _ _ _ _ => (1 : ℚ)).nW : ℚ),
            1 * (r : ℚ) / ((Tensor4.mk 1 19 1 1 fun _ _ _ _ => (1 : ℚ)).nH : ℚ), m)
        else none) :=
  ⟨(parse_processes_all_channels cocoBodyParts
      (Tensor4.mk 1 19 1 1 fun _ _ _ _ => 1) 1 1 0).1,
    ⟨by decide, by decide, by decide⟩,
    (parse_processes_all_channels cocoBodyParts
      (Tensor4.mk 1 19 1 1 fun _ _ _ _ => 1) 1 1 0).2 18 (by decide) (by decide) (by decide)⟩

/-- C8: every emitted keypoint's pixel coordinates are the linear rescaling
of the channel-maximum location: `x = imgW * colMax / W` and
`y = imgH * rowMax / H` where `(rowMax, colMax)` attains the channel's
maximum and `W`, `H` are the score volume's spatial sizes; in particular
`x / imgW = colMax / W` whenever `imgW ≠ 0`. -/
theorem parse_coordinate_scaling (bodyParts : List (String × ℕ)) (t : Tensor4)
    (imgW imgH threshold : ℚ) (idx : ℕ) (x y cq : ℚ) (hidx : idx < bodyParts.length)
    (hH : 0 < t.nH) (hW : 0 < t.nW)
    (hget : (parseKeypoints bodyParts t imgW imgH threshold)[idx]? = some (some (x, y, cq))) :
    ∃ r c, r < t.nH ∧ c < t.nW ∧ t.data 0 idx r c = cq ∧ IsPlaneMax t idx cq ∧
      x = imgW * (c : ℚ) / (t.nW : ℚ) ∧ y = imgH * (r : ℚ) / (t.nH : ℚ) ∧
      (imgW ≠ 0 → x / imgW = (c : ℚ) / (t.nW : ℚ)) := by
  obtain ⟨r, c, m, hr, hc, hmax, hval, hget'⟩ :=
    parse_entry_spec bodyParts t imgW imgH threshold idx hidx hH hW
  rw [hget'] at hget
  by_cases hlt : threshold < m
  · rw [if_pos hlt] at hget
    obtain ⟨hx, hy, hm⟩ : imgW * (c : ℚ) / (t.nW : ℚ) = x ∧
        imgH * (r : ℚ) / (t.nH : ℚ) = y ∧ m = cq := by simpa using hget
    refine ⟨r, c, hr, hc, hm ▸ hval, hm ▸ hmax, hx.symm, hy.symm, ?_⟩
    intro hiw
    rw [← hx, mul_div_assoc, mul_div_cancel_left₀ _ hiw]
  · rw [if_neg hlt] at hget
    simp at hget

/-- C8 witness: on a 2×2 volume peaking at value 5 at (row 0, column 1),
with image size 8×6 the emitted keypoint is `(8*1/2, 6*0/2, 5) = (4, 0, 5)`. -/
theorem parse_coordinate_scaling_witness :
    (0 < cocoBodyParts.length ∧
      0 < (Tensor4.mk 1 19 2 2 fun _ _ r c => if r = 0 ∧ c = 1 then 5 else 1).nH ∧
      0 < (Tensor4.mk 1 19 2 2 fun _ _ r c => if r = 0 ∧ c = 1 then 5 else 1).nW ∧
      (parseKeypoints cocoBodyParts
        (Tensor4.mk 1 19 2 2 fun _ _ r c => if r = 0 ∧ c = 1 then 5 else 1) 8 6 2)[0]? =
          some (some (4, 0, 5))) ∧
    ∃ r c, r < (Tensor4.mk 1 19 2 2 fun _ _ r c => if r = 0 ∧ c = 1 then 5 else 1).nH ∧
      c < (Tensor4.mk 1 19 2 2 fun _ _ r c => if r = 0 ∧ c = 1 then 5 else 1).nW ∧
      (Tensor4.mk 1 19 2 2 fun _ _ r c => if r = 0 ∧ c = 1 then (5 : ℚ) else 1).data 0 0 r c = 5 ∧
      IsPlaneMax (Tensor4.mk 1 19 2 2 fun _ _ r c => if r = 0 ∧ c = 1 then 5 else 1) 0 5 ∧
      (4 : ℚ) = 8 * (c : ℚ) /
        ((Tensor4.mk 1 19 2 2 fun _ _ r c => if r = 0 ∧ c = 1 then (5 : ℚ) else 1).nW : ℚ) ∧
      (0 : ℚ) = 6 * (r : ℚ) /
        ((Tensor4.mk 1 19 2 2 fun _ _ r c => if r = 0 ∧ c = 1 then (5 : ℚ) else 1).nH : ℚ) ∧
      ((8 : ℚ) ≠ 0 → (4 : ℚ) / 8 = (c : ℚ) /
        ((Tensor4.mk 1 19 2 2 fun _ _ r c => if r = 0 ∧ c = 1 then (5 : ℚ) else 1).nW : ℚ)) :=
  ⟨⟨by decide, by decide, by decide, by
      norm_num [parseKeypoints, argmaxPlane, scanRC, argmaxStep, probMap, cocoBodyParts,
        List.getElem?_map, List.getElem?_range, List.range_succ, List.range_zero,
        List.flatMap_cons, List.flatMap_nil, List.foldl_cons, List.foldl_nil]⟩,
    parse_coordinate_scaling cocoBodyParts
      (Tensor4.mk 1 19 2 2 fun _ _ r c => if r = 0 ∧ c = 1 then 5 else 1) 8 6 2 0 4 0 5
      (by decide) (by decide) (by decide)
      (by norm_num [parseKeypoints, argmaxPlane, scanRC, argmaxStep, probMap, cocoBodyParts,
        List.getElem?_map, List.getElem?_range, List.range_succ, List.range_zero,
        List.flatMap_cons, List.flatMap_nil, List.foldl_cons, List.foldl_nil])⟩

/-- C7: `add_keypoints_to_json` replaces each absent keypoint by the triple
`(missing_val, missing_val, missing_val)`, flattens the triples into one
flat sequence, and wraps it in `{version: 1.0, people: [exactly one
entry]}`; the flat sequence's length is `3 *` the pose length, which is
`3 * len(BODY_PARTS)` for every pose the extractor produces. -/
theorem add_keypoints_to_json_spec (points : List (Option Keypoint)) (missing_val : ℚ) :
    (add_keypoints_to_json points missing_val).version = 1 ∧
    (add_keypoints_to_json points missing_val).people =
      [flattenKeypoints points missing_val] ∧
    (add_keypoints_to_json points missing_val).people.length = 1 ∧
    flattenKeypoints points missing_val =
      points.flatMap (fun p => match p with
        | some k => [k.1, k.2.1, k.2.2]
        | none => [missing_val, missing_val, missing_val]) ∧
    (flattenKeypoints points missing_val).length = 3 * points.length ∧
    ∀ (bodyParts : List (String × ℕ)) (t : Tensor4) (imgW imgH threshold : ℚ),
      (flattenKeypoints (parseKeypoints bodyParts t imgW imgH threshold)
        missing_val).length = 3 * bodyParts.length := by
  refine ⟨rfl, rfl, rfl, ?_, flattenKeypoints_length points missing_val, ?_⟩
  · rw [flattenKeypoints, List.flatMap_map]
    refine List.flatMap_congr ?_
    intro p _
    cases p <;> rfl
  · intro bodyParts t imgW imgH threshold
    rw [flattenKeypoints_length, parse_length]

lemma take_drop_assemble {α : Type} (l : List α) (a b : ℕ) (hab : a ≤ b) :
    l.take a ++ ((l.drop a).take (b - a) ++ l.drop b) = l := by
  have h1 : l.drop b = (l.drop a).drop (b - a) := by
    rw [List.drop_drop]
    congr 1
    omega
  rw [h1, List.take_append_drop (b - a) (l.drop a), List.take_append_drop a l]

/-- Successful path of `random_split`: under the asserted preconditions (and
nonnegative ratios) the call returns the three contiguous slices of the
shuffled list cut at `⌊n * train_ratio⌋` and
`⌊n * (train_ratio + val_ratio)⌋`. -/
lemma random_split_ok (files : List String) (output_path : String)
    (train_ratio val_ratio : ℚ) (mv : Bool) (name : String) (shuffled : List String)
    (ht : 0 ≤ train_ratio) (hv : 0 ≤ val_ratio) (hsum : train_ratio + val_ratio ≤ 1)
    (hne : files ≠ []) :
    (random_split files output_path train_ratio val_ratio mv name shuffled).result =
      .ok (shuffled.take (⌊(files.length : ℚ) * train_ratio⌋).toNat,
        (shuffled.drop (⌊(files.length : ℚ) * train_ratio⌋).toNat).take
          ((⌊(files.length : ℚ) * (train_ratio + val_ratio)⌋).toNat -
            (⌊(files.length : ℚ) * train_ratio⌋).toNat),
        shuffled.drop (⌊(files.length : ℚ) * (train_ratio + val_ratio)⌋).toNat) := by
  have hn : 0 < files.length := List.length_pos.mpr hne
  have hn0 : (0 : ℚ) ≤ (files.length : ℚ) := by positivity
  have hnt : (0 : ℚ) ≤ (files.length : ℚ) * train_ratio := mul_nonneg hn0 ht
  have hns : (0 : ℚ) ≤ (files.length : ℚ) * (train_ratio + val_ratio) :=
    mul_nonneg hn0 (by linarith)
  have hA : pyInt ((files.length : ℚ) * train_ratio) =
      ⌊(files.length : ℚ) * train_ratio⌋ := if_pos hnt
  have hB : pyInt ((files.length : ℚ) * (train_ratio + val_ratio)) =
      ⌊(files.length : ℚ) * (train_ratio + val_ratio)⌋ := if_pos hns
  have h0A : 0 ≤ ⌊(files.length : ℚ) * train_ratio⌋ := Int.floor_nonneg.mpr hnt
  have h0B : 0 ≤ ⌊(files.length : ℚ) * (train_ratio + val_ratio)⌋ :=
    Int.floor_nonneg.mpr hns
  have hBn : ⌊(files.length : ℚ) * (train_ratio + val_ratio)⌋ ≤ (files.length : ℤ) := by
    have hle : (files.length : ℚ) * (train_ratio + val_ratio) ≤ (files.length : ℚ) := by
      nlinarith
    calc ⌊(files.length : ℚ) * (train_ratio + val_ratio)⌋
        ≤ ⌊(files.length : ℚ)⌋ := Int.floor_le_floor hle
      _ = (files.length : ℤ) := Int.floor_natCast _
  have hAB : ⌊(files.length : ℚ) * train_ratio⌋ ≤
      ⌊(files.length : ℚ) * (train_ratio + val_ratio)⌋ :=
    Int.floor_le_floor (by nlinarith)
  have hsA : pySliceIdx (pyInt ((files.length : ℚ) * train_ratio)) files.length =
      (⌊(files.length : ℚ) * train_ratio⌋).toNat := by
    rw [hA, pySliceIdx, if_neg (not_lt.mpr h0A)]
    omega
  have hsB : pySliceIdx (pyInt ((files.length : ℚ) * (train_ratio + val_ratio)))
      files.length = (⌊(files.length : ℚ) * (train_ratio + val_ratio)⌋).toNat := by
    rw [hB, pySliceIdx, if_neg (not_lt.mpr h0B)]
    omega
  simp only [random_split, if_pos hsum, if_pos hn, hsA, hsB]

/-- C2: for every non-empty input and nonnegative ratios summing to at most
1, the train/val/test groups produced by `random_split` are a permutation
partition of the input: they concatenate to the shuffled list, their total
length is the input length, and every file occurs exactly as often across
the three groups as in the input. -/
theorem random_split_is_partition (files : List String) (output_path : String)
    (train_ratio val_ratio : ℚ) (mv : Bool) (name : String) (shuffled : List String)
    (ht : 0 ≤ train_ratio) (hv : 0 ≤ val_ratio) (hsum : train_ratio + val_ratio ≤ 1)
    (hne : files ≠ []) (hperm : shuffled.Perm files) :
    ∃ train val test,
      (random_split files output_path train_ratio val_ratio mv name shuffled).result =
        .ok (train, val, test) ∧
      train ++ val ++ test = shuffled ∧
      (train ++ val ++ test).Perm files ∧
      train.length + val.length + test.length = files.length ∧
      ∀ f, files.count f = train.count f + val.count f + test.count f := by
  have heq :=
    random_split_ok files output_path train_ratio val_ratio mv name shuffled ht hv hsum hne
  have hn0 : (0 : ℚ) ≤ (files.length : ℚ) := by positivity
  have hAB : ⌊(files.length : ℚ) * train_ratio⌋ ≤
      ⌊(files.length : ℚ) * (train_ratio + val_ratio)⌋ :=
    Int.floor_le_floor (by nlinarith)
  have hab : (⌊(files.length : ℚ) * train_ratio⌋).toNat ≤
      (⌊(files.length : ℚ) * (train_ratio + val_ratio)⌋).toNat := by omega
  have hassemble := take_drop_assemble shuffled
    (⌊(files.length : ℚ) * train_ratio⌋).toNat
    (⌊(files.length : ℚ) * (train_ratio + val_ratio)⌋).toNat hab
  refine ⟨_, _, _, heq, ?_, ?_, ?_, ?_⟩
  · rw [List.append_assoc]
    exact hassemble
  · rw [List.append_assoc, hassemble]
    exact hperm
  · have hlen : ((shuffled.take (⌊(files.length : ℚ) * train_ratio⌋).toNat ++
        ((shuffled.drop (⌊(files.length : ℚ) * train_ratio⌋).toNat).take
          ((⌊(files.length : ℚ) * (train_ratio + val_ratio)⌋).toNat -
            (⌊(files.length : ℚ) * train_ratio⌋).toNat) ++
          shuffled.drop
            (⌊(files.length : ℚ) * (train_ratio + val_ratio)⌋).toNat))).length =
        shuffled.length := by rw [hassemble]
    simp only [List.length_append] at hlen
    rw [hperm.length_eq] at hlen
    omega
  · intro f
    have h1 : ((shuffled.take (⌊(files.length : ℚ) * train_ratio⌋).toNat ++
        ((shuffled.drop (⌊(files.length : ℚ) * train_ratio⌋).toNat).take
          ((⌊(files.length : ℚ) * (train_ratio + val_ratio)⌋).toNat -
            (⌊(files.length : ℚ) * train_ratio⌋).toNat) ++
          shuffled.drop
            (⌊(files.length : ℚ) * (train_ratio + val_ratio)⌋).toNat))).count f =
        shuffled.count f := by rw [hassemble]
    simp only [List.count_append] at h1
    have h2 : shuffled.count f = files.count f := hperm.count_eq f
    omega

/-- C2 witness: splitting three files with ratios 1/2 and 1/4. -/
theorem random_split_is_partition_witness :
    ((0 : ℚ) ≤ 1 / 2 ∧ (0 : ℚ) ≤ 1 / 4 ∧ (1 : ℚ) / 2 + 1 / 4 ≤ 1 ∧
      (["a", "b", "c"] : List String) ≠ [] ∧
      (["c", "a", "b"] : List String).Perm ["a", "b", "c"]) ∧
    ∃ train val test,
      (random_split ["a", "b", "c"] "out" (1 / 2) (1 / 4) false "cls"
        ["c", "a", "b"]).result = .ok (train, val, test) ∧
      train ++ val ++ test = ["c", "a", "b"] ∧
      (train ++ val ++ test).Perm ["a", "b", "c"] ∧
      train.length + val.length + test.length = (["a", "b", "c"] : List String).length ∧
      ∀ f, (["a", "b", "c"] : List String).count f =
        train.count f + val.count f + test.count f :=
  ⟨⟨by norm_num, by norm_num, by norm_num, by decide, by decide⟩,
    random_split_is_partition ["a", "b", "c"] "out" (1 / 2) (1 / 4) false "cls"
      ["c", "a", "b"] (by norm_num) (by norm_num) (by norm_num) (by decide) (by decide)⟩

set_option maxRecDepth 100000 in
/-- C3: `random_split` cuts the shuffled list at `⌊n * train_ratio⌋` and
`⌊n * (train_ratio + val_ratio)⌋` into three contiguous slices; and on a
10-element input with `train_ratio = 0.7` and `val_ratio = 0.2` — computed
with genuine IEEE-754 binary64 Python float semantics, where
`0.7 + 0.2 = 0.8999999999999999` but `10 * (0.7 + 0.2)` rounds back to
exactly `9.0` — the slices have lengths 7, 2 and 1. -/
theorem random_split_cut_indices :
    (∀ (files : List String) (output_path : String) (train_ratio val_ratio : ℚ)
        (mv : Bool) (name : String) (shuffled : List String),
      0 ≤ train_ratio → 0 ≤ val_ratio → train_ratio + val_ratio ≤ 1 → files ≠ [] →
      (random_split files output_path train_ratio val_ratio mv name shuffled).result =
        .ok (shuffled.take (⌊(files.length : ℚ) * train_ratio⌋).toNat,
          (shuffled.drop (⌊(files.length : ℚ) * train_ratio⌋).toNat).take
            ((⌊(files.length : ℚ) * (train_ratio + val_ratio)⌋).toNat -
              (⌊(files.length : ℚ) * train_ratio⌋).toNat),
          shuffled.drop (⌊(files.length : ℚ) * (train_ratio + val_ratio)⌋).toNat)) ∧
    (∀ l : List String, l.length = 10 →
      (pySplitFloatSlices l (roundPosRat 7 10) (roundPosRat 2 10)).1.length = 7 ∧
      (pySplitFloatSlices l (roundPosRat 7 10) (roundPosRat 2 10)).2.1.length = 2 ∧
      (pySplitFloatSlices l (roundPosRat 7 10) (roundPosRat 2 10)).2.2.length = 1) := by
  constructor
  · intro files output_path train_ratio val_ratio mv name shuffled ht hv hsum hne
    exact random_split_ok files output_path train_ratio val_ratio mv name shuffled
      ht hv hsum hne
  · intro l hl
    have h7 : (dfmul (roundDyadic ⟨(10 : ℤ), 0⟩) (roundPosRat 7 10)).pyTrunc = 7 := by
      decide
    have h9 : (dfmul (roundDyadic ⟨(10 : ℤ), 0⟩)
        (dfadd (roundPosRat 7 10) (roundPosRat 2 10))).pyTrunc = 9 := by decide
    have hs7 : pySliceIdx 7 10 = 7 := by decide
    have hs9 : pySliceIdx 9 10 = 9 := by decide
    simp only [pySplitFloatSlices, hl, Nat.cast_ofNat, h7, h9, hs7, hs9]
    refine ⟨?_, ?_, ?_⟩ <;> simp [List.length_take, List.length_drop, hl]

/-- C3 witness: the general cut-index form on a concrete 3-file call, and
the float-semantics 0.7/0.2 lengths on a concrete 10-file list. -/
theorem random_split_cut_indices_witness :
    ((0 : ℚ) ≤ 1 / 2 ∧ (0 : ℚ) ≤ 1 / 4 ∧ (1 : ℚ) / 2 + 1 / 4 ≤ 1 ∧
      (["a", "b", "c"] : List String) ≠ [] ∧
      (random_split ["a", "b", "c"] "out" (1 / 2) (1 / 4) true "cls"
        ["b", "c", "a"]).result =
        .ok ((["b", "c", "a"] : List String).take
            (⌊((["a", "b", "c"] : List String).length : ℚ) * (1 / 2)⌋).toNat,
          ((["b", "c", "a"] : List String).drop
            (⌊((["a", "b", "c"] : List String).length : ℚ) * (1 / 2)⌋).toNat).take
            ((⌊((["a", "b", "c"] : List String).length : ℚ) * (1 / 2 + 1 / 4)⌋).toNat -
              (⌊((["a", "b", "c"] : List String).length : ℚ) * (1 / 2)⌋).toNat),
          (["b", "c", "a"] : List String).drop
            (⌊((["a", "b", "c"] : List String).length : ℚ) * (1 / 2 + 1 / 4)⌋).toNat)) ∧
    ((["f0", "f1", "f2", "f3", "f4", "f5", "f6", "f7", "f8", "f9"] :
        List String).length = 10 ∧
      (pySplitFloatSlices ["f0", "f1", "f2", "f3", "f4", "f5", "f6", "f7", "f8", "f9"]
        (roundPosRat 7 10) (roundPosRat 2 10)).1.length = 7 ∧
      (pySplitFloatSlices ["f0", "f1", "f2", "f3", "f4", "f5", "f6", "f7", "f8", "f9"]
        (roundPosRat 7 10) (roundPosRat 2 10)).2.1.length = 2 ∧
      (pySplitFloatSlices ["f0", "f1", "f2", "f3", "f4", "f5", "f6", "f7", "f8", "f9"]
        (roundPosRat 7 10) (roundPosRat 2 10)).2.2.length = 1) :=
  ⟨⟨by norm_num, by norm_num, by norm_num, by decide,
      random_split_cut_indices.1 ["a", "b", "c"] "out" (1 / 2) (1 / 4) true "cls"
        ["b", "c", "a"] (by norm_num) (by norm_num) (by norm_num) (by decide)⟩,
    ⟨rfl, random_split_cut_indices.2
      ["f0", "f1", "f2", "f3", "f4", "f5", "f6", "f7", "f8", "f9"] rfl⟩⟩

/-- C5: `random_split` validates its preconditions before any filesystem
mutation: a ratio sum above 1 fails with the configuration error and an
empty input fails with the empty-input error, in both cases with an empty
operation trace (no directory created, no file copied or moved). -/
theorem random_split_validates_before_mutation (files : List String)
    (output_path : String) (train_ratio val_ratio : ℚ) (mv : Bool) (name : String)
    (shuffled : List String) :
    (1 < train_ratio + val_ratio →
      random_split files output_path train_ratio val_ratio mv name shuffled =
        ⟨[], .error .configurationError⟩) ∧
    (train_ratio + val_ratio ≤ 1 → files = [] →
      random_split files output_path train_ratio val_ratio mv name shuffled =
        ⟨[], .error .emptyInputError⟩) := by
  constructor
  · intro hgt
    simp only [random_split, if_neg (not_le.mpr hgt)]
  · intro hle hnil
    subst hnil
    simp [random_split, hle]

/-- C5 witness: ratios 0.8 + 0.3 > 1 fail with the configuration error; an
empty input with valid ratios fails with the empty-input error. -/
theorem random_split_validates_witness :
    ((1 : ℚ) < 4 / 5 + 3 / 10 ∧
      random_split ["x"] "out" (4 / 5) (3 / 10) false "" ["x"] =
        ⟨[], .error .configurationError⟩) ∧
    ((1 : ℚ) / 2 + 1 / 4 ≤ 1 ∧
      random_split [] "out" (1 / 2) (1 / 4) false "" [] =
        ⟨[], .error .emptyInputError⟩) :=
  ⟨⟨by norm_num,
      (random_split_validates_before_mutation ["x"] "out" (4 / 5) (3 / 10) false ""
        ["x"]).1 (by norm_num)⟩,
    ⟨by norm_num,
      (random_split_validates_before_mutation [] "out" (1 / 2) (1 / 4) false "" []).2
        (by norm_num) rfl⟩⟩

/-- C6: `visualize` issues the point-drawing loop followed by the skeleton
loop, and for a topology pair resolving to indices `p1`, `p2` the connecting
line segment is drawn iff both endpoint keypoints are present and both
confidences strictly exceed the threshold. -/
theorem visualize_draws_edge_iff (bodyParts : List (String × ℕ))
    (posePairs : List (String × String)) (keypoints : List (Option Keypoint))
    (put_text : Bool) (threshold : ℚ) (pair : String × String) (p1 p2 : ℕ)
    (h1 : lookupPart bodyParts pair.1 = some p1)
    (h2 : lookupPart bodyParts pair.2 = some p2) :
    visualizeCmds bodyParts posePairs keypoints put_text threshold =
      (List.range bodyParts.length).flatMap
        (pointCmdsFor keypoints put_text threshold) ++
        posePairs.flatMap (edgeCmdFor bodyParts keypoints threshold) ∧
    (edgeCmdFor bodyParts keypoints threshold pair ≠ [] ↔
      (∃ k1, keypoints[p1]? = some (some k1) ∧ threshold < k1.2.2) ∧
      (∃ k2, keypoints[p2]? = some (some k2) ∧ threshold < k2.2.2)) := by
  refine ⟨rfl, ?_⟩
  simp only [edgeCmdFor, h1, h2]
  rcases hk1 : keypoints[p1]? with _ | (_ | k1) <;>
    rcases hk2 : keypoints[p2]? with _ | (_ | k2) <;>
    simp [hk1, hk2]

/-- C6 witness: the COCO Neck–RShoulder pair on a pose with every keypoint
present at confidence 3 and threshold 0. -/
theorem visualize_draws_edge_iff_witness :
    (lookupPart cocoBodyParts ("Neck", "RShoulder").1 = some 1 ∧
      lookupPart cocoBodyParts ("Neck", "RShoulder").2 = some 2) ∧
    (visualizeCmds cocoBodyParts cocoPosePairs
        (List.replicate 19 (some ((1 : ℚ), (2 : ℚ), (3 : ℚ)))) false 0 =
      (List.range cocoBodyParts.length).flatMap
        (pointCmdsFor (List.replicate 19 (some ((1 : ℚ), (2 : ℚ), (3 : ℚ)))) false 0) ++
        cocoPosePairs.flatMap
          (edgeCmdFor cocoBodyParts (List.replicate 19 (some ((1 : ℚ), (2 : ℚ), (3 : ℚ)))) 0) ∧
    (edgeCmdFor cocoBodyParts (List.replicate 19 (some ((1 : ℚ), (2 : ℚ), (3 : ℚ)))) 0
        ("Neck", "RShoulder") ≠ [] ↔
      (∃ k1 : Keypoint,
        (List.replicate 19 (some ((1 : ℚ), (2 : ℚ), (3 : ℚ))))[1]? = some (some k1) ∧
        0 < k1.2.2) ∧
      (∃ k2 : Keypoint,
        (List.replicate 19 (some ((1 : ℚ), (2 : ℚ), (3 : ℚ))))[2]? = some (some k2) ∧
        0 < k2.2.2))) :=
  ⟨⟨by decide, by decide⟩,
    visualize_draws_edge_iff cocoBodyParts cocoPosePairs
      (List.replicate 19 (some ((1 : ℚ), (2 : ℚ), (3 : ℚ)))) false 0 ("Neck", "RShoulder") 1 2
      (by decide) (by decide)⟩

lemma heapDraw_foldl (cmds : List DrawCmd) :
    ∀ (hh : List PoseImage) (k : ℕ) (img : PoseImage), hh[k]? = some img →
      (∀ i, i ≠ k →
        (cmds.foldl (fun x c => heapDraw x k c) hh)[i]? = hh[i]?) ∧
      (cmds.foldl (fun x c => heapDraw x k c) hh)[k]? =
        some ⟨img.content, img.overlays ++ cmds⟩ := by
  induction cmds with
  | nil =>
    intro hh k img hk
    refine ⟨fun i _ => rfl, ?_⟩
    simpa using hk
  | cons c cs ih =>
    intro hh k img hk
    have hklt : k < hh.length := (List.getElem?_eq_some_iff.mp hk).1
    have hstep : heapDraw hh k c = hh.set k ⟨img.content, img.overlays ++ [c]⟩ := by
      simp only [heapDraw, hk]
    have hset : (hh.set k ⟨img.content, img.overlays ++ [c]⟩)[k]? =
        some ⟨img.content, img.overlays ++ [c]⟩ := by
      simp [List.getElem?_set_self hklt]
    obtain ⟨ih1, ih2⟩ :=
      ih (hh.set k ⟨img.content, img.overlays ++ [c]⟩) k
        ⟨img.content, img.overlays ++ [c]⟩ hset
    constructor
    · intro i hik
      rw [List.foldl_cons, hstep, ih1 i hik, List.getElem?_set_ne (Ne.symm hik)]
    · rw [List.foldl_cons, hstep, ih2]
      simp

/-- C9: `visualize` never mutates the caller's image: it allocates a copy,
issues every drawing call against the copy, and returns the reference to the
copy; afterwards every pre-existing buffer — the input image included —
holds exactly its old content, and the returned buffer holds the input
image's content with the drawing calls appended. -/
theorem visualize_does_not_mutate_input (h : List PoseImage) (r : ℕ)
    (img : PoseImage) (bodyParts : List (String × ℕ))
    (posePairs : List (String × String)) (keypoints : List (Option Keypoint))
    (put_text : Bool) (threshold : ℚ) (hr : h[r]? = some img) :
    (visualizeHeap h r bodyParts posePairs keypoints put_text threshold).2 =
      h.length ∧
    (∀ i, i < h.length →
      (visualizeHeap h r bodyParts posePairs keypoints put_text threshold).1[i]? =
        h[i]?) ∧
    (visualizeHeap h r bodyParts posePairs keypoints put_text threshold).1[h.length]? =
      some ⟨img.content,
        img.overlays ++ visualizeCmds bodyParts posePairs keypoints put_text threshold⟩ := by
  have hbase : (h ++ [img])[h.length]? = some img := List.getElem?_concat_length h img
  obtain ⟨f1, f2⟩ :=
    heapDraw_foldl (visualizeCmds bodyParts posePairs keypoints put_text threshold)
      (h ++ [img]) h.length img hbase
  have hcopy : visualizeHeap h r bodyParts posePairs keypoints put_text threshold =
      ((visualizeCmds bodyParts posePairs keypoints put_text threshold).foldl
        (fun hh c => heapDraw hh h.length c) (h ++ [img]), h.length) := by
    simp only [visualizeHeap, hr]
  refine ⟨by rw [hcopy], ?_, ?_⟩
  · intro i hi
    rw [hcopy]
    have hne : i ≠ h.length := Nat.ne_of_lt hi
    rw [f1 i hne, List.getElem?_append_left hi]
  · rw [hcopy]
    exact f2

/-- C9 witness: a one-buffer heap; the call leaves buffer 0 untouched and
returns buffer 1 holding the copy with the drawing calls appended. -/
theorem visualize_does_not_mutate_input_witness :
    ([PoseImage.mk 5 []] : List PoseImage)[0]? = some (PoseImage.mk 5 []) ∧
    ((visualizeHeap [PoseImage.mk 5 []] 0 cocoBodyParts cocoPosePairs
        (List.replicate 19 (some ((1 : ℚ), (2 : ℚ), (3 : ℚ)))) false 0).2 =
      ([PoseImage.mk 5 []] : List PoseImage).length ∧
    (∀ i, i < ([PoseImage.mk 5 []] : List PoseImage).length →
      (visualizeHeap [PoseImage.mk 5 []] 0 cocoBodyParts cocoPosePairs
        (List.replicate 19 (some ((1 : ℚ), (2 : ℚ), (3 : ℚ)))) false 0).1[i]? =
        ([PoseImage.mk 5 []] : List PoseImage)[i]?) ∧
    (visualizeHeap [PoseImage.mk 5 []] 0 cocoBodyParts cocoPosePairs
        (List.replicate 19 (some ((1 : ℚ), (2 : ℚ), (3 : ℚ)))) false
        0).1[([PoseImage.mk 5 []] : List PoseImage).length]? =
      some ⟨(PoseImage.mk 5 []).content,
        (PoseImage.mk 5 []).overlays ++ visualizeCmds cocoBodyParts cocoPosePairs
          (List.replicate 19 (some ((1 : ℚ), (2 : ℚ), (3 : ℚ)))) false 0⟩) :=
  ⟨rfl,
    visualize_does_not_mutate_input [PoseImage.mk 5 []] 0 (PoseImage.mk 5 [])
      cocoBodyParts cocoPosePairs (List.replicate 19 (some ((1 : ℚ), (2 : ℚ), (3 : ℚ))))
      false 0 rfl⟩

lemma pairOk_spec (bodyParts : List (String × ℕ)) (pair : String × String)
    (h : pairOk bodyParts pair = true) :
    ∃ i j, lookupPart bodyParts pair.1 = some i ∧ lookupPart bodyParts pair.2 = some j ∧
      i < bodyParts.length ∧ j < bodyParts.length := by
  rcases hl1 : lookupPart bodyParts pair.1 with _ | i <;>
    rcases hl2 : lookupPart bodyParts pair.2 with _ | j <;>
    rw [pairOk, hl1, hl2] at h
  · exact absurd h (by simp)
  · exact absurd h (by simp)
  · exact absurd h (by simp)
  · simp only [Bool.and_eq_true, decide_eq_true_eq] at h
    exact ⟨i, j, rfl, rfl, h.1, h.2⟩

/-- C10: in each model variant, every part name in `POSE_PAIRS` is a key of
that variant's `BODY_PARTS` whose channel index is strictly below
`len(BODY_PARTS)`; hence for any keypoint list of length `len(BODY_PARTS)`
the lookups `keypoints[p1]`, `keypoints[p2]` in the skeleton loop are in
range. -/
theorem topology_pose_pairs_in_range :
    (∀ pair ∈ cocoPosePairs, ∃ i j,
      lookupPart cocoBodyParts pair.1 = some i ∧
      lookupPart cocoBodyParts pair.2 = some j ∧
      i < cocoBodyParts.length ∧ j < cocoBodyParts.length ∧
      ∀ keypoints : List (Option Keypoint),
        keypoints.length = cocoBodyParts.length →
          i < keypoints.length ∧ j < keypoints.length) ∧
    (∀ pair ∈ mpiPosePairs, ∃ i j,
      lookupPart mpiBodyParts pair.1 = some i ∧
      lookupPart mpiBodyParts pair.2 = some j ∧
      i < mpiBodyParts.length ∧ j < mpiBodyParts.length ∧
      ∀ keypoints : List (Option Keypoint),
        keypoints.length = mpiBodyParts.length →
          i < keypoints.length ∧ j < keypoints.length) ∧
    (∀ pair ∈ body25PosePairs, ∃ i j,
      lookupPart body25BodyParts pair.1 = some i ∧
      lookupPart body25BodyParts pair.2 = some j ∧
      i < body25BodyParts.length ∧ j < body25BodyParts.length ∧
      ∀ keypoints : List (Option Keypoint),
        keypoints.length = body25BodyParts.length →
          i < keypoints.length ∧ j < keypoints.length) := by
  refine ⟨?_, ?_, ?_⟩
  · intro pair hp
    have hall : cocoPosePairs.all (pairOk cocoBodyParts) = true := by decide
    obtain ⟨i, j, hl1, hl2, hi, hj⟩ :=
      pairOk_spec cocoBodyParts pair (List.all_eq_true.mp hall pair hp)
    exact ⟨i, j, hl1, hl2, hi, hj, fun kps hk => ⟨hk ▸ hi, hk ▸ hj⟩⟩
  · intro pair hp
    have hall : mpiPosePairs.all (pairOk mpiBodyParts) = true := by decide
    obtain ⟨i, j, hl1, hl2, hi, hj⟩ :=
      pairOk_spec mpiBodyParts pair (List.all_eq_true.mp hall pair hp)
    exact ⟨i, j, hl1, hl2, hi, hj, fun kps hk => ⟨hk ▸ hi, hk ▸ hj⟩⟩
  · intro pair hp
    have hall : body25PosePairs.all (pairOk body25BodyParts) = true := by decide
    obtain ⟨i, j, hl1, hl2, hi, hj⟩ :=
      pairOk_spec body25BodyParts pair (List.all_eq_true.mp hall pair hp)
    exact ⟨i, j, hl1, hl2, hi, hj, fun kps hk => ⟨hk ▸ hi, hk ▸ hj⟩⟩

/-- C10 witness: the Neck–RShoulder pair of the COCO variant. -/
theorem topology_pose_pairs_in_range_witness :
    (("Neck", "RShoulder") ∈ cocoPosePairs) ∧
    ∃ i j, lookupPart cocoBodyParts ("Neck", "RShoulder").1 = some i ∧
      lookupPart cocoBodyParts ("Neck", "RShoulder").2 = some j ∧
      i < cocoBodyParts.length ∧ j < cocoBodyParts.length ∧
      ∀ keypoints : List (Option Keypoint),
        keypoints.length = cocoBodyParts.length →
          i < keypoints.length ∧ j < keypoints.length :=
  ⟨by decide, topology_pose_pairs_in_range.1 ("Neck", "RShoulder") (by decide)⟩
